import Mathlib

set_option maxRecDepth 100000

/-!
# Verification of the launch-dogly webhook handler

Shallow embedding of `src/main.rs` of the `meetup/launch-dogly` repository:
a LaunchDarkly webhook handler that authenticates requests by an
HMAC-SHA256 signature and records flag changes as Datadog events.

Bytes are modelled as `Nat` (every real byte is `< 256`); byte strings
(request bodies, secrets, header values, digests) are `List Nat`.
32-bit words are `Nat` reduced modulo `2^32` wherever the Rust `u32`
arithmetic wraps.
-/

/-! ## Hex encoding and decoding (the `hex` crate)

`Vec::from_hex` decodes a byte string of ASCII hex digits (upper or lower
case), two digits per output byte, failing on any non-hex character or on
odd length.  `hex::encode` produces lowercase digits. -/

/-- Value of one ASCII hex digit (`0-9`, `a-f`, `A-F`), `none` otherwise.
Mirrors the digit handling of the `hex` crate's `FromHex`. -/
def fromHexDigit (c : Nat) : Option Nat :=
  if 48 ≤ c ∧ c ≤ 57 then some (c - 48)
  else if 97 ≤ c ∧ c ≤ 102 then some (c - 87)
  else if 65 ≤ c ∧ c ≤ 70 then some (c - 55)
  else none

/-- `Vec::from_hex` on a list of ASCII codes: two hex digits per byte,
failing (`none`) on a non-digit or an odd-length input. -/
def hexDecode : List Nat → Option (List Nat)
  | [] => some []
  | [_] => none
  | hi :: lo :: rest => do
    let h ← fromHexDigit hi
    let l ← fromHexDigit lo
    let tail ← hexDecode rest
    pure ((h * 16 + l) :: tail)

/-- Lowercase ASCII code of a hex digit value (`hex::encode` digit table). -/
def toHexDigit (n : Nat) : Nat :=
  if n < 10 then 48 + n else 87 + n

/-- `hex::encode` of a byte list, as a list of ASCII codes. -/
def hexEncode : List Nat → List Nat
  | [] => []
  | b :: rest => toHexDigit (b / 16) :: toHexDigit (b % 16) :: hexEncode rest

/-! ## Fixed-time comparison (rust-crypto `util::fixed_time_eq`)

`MacResult == MacResult` in rust-crypto is `fixed_time_eq` on the two
digest byte slices: after a length check it OR-accumulates the XOR of
every byte pair over the full length and only tests the accumulator at
the end — it never short-circuits on the first mismatching byte. -/

/-- The accumulator loop of `fixed_time_eq`: `x |= lhs[i] ^ rhs[i]` over
all indices (callers have already checked the lengths agree). -/
def fixedTimeEqAcc : List Nat → List Nat → Nat
  | x :: xs, y :: ys => (x ^^^ y) ||| fixedTimeEqAcc xs ys
  | _, _ => 0

/-- rust-crypto `fixed_time_eq`: `false` on a length mismatch, otherwise
the OR-accumulated XOR over the full length compared with zero. -/
def fixedTimeEq (a b : List Nat) : Bool :=
  if a.length = b.length then fixedTimeEqAcc a b == 0 else false

/-- Instrumented form of the `fixed_time_eq` loop: first component is the
accumulator, second counts the byte operations the loop performs. -/
def fixedTimeEqTrace : List Nat → List Nat → Nat × Nat
  | x :: xs, y :: ys =>
    let r := fixedTimeEqTrace xs ys
    ((x ^^^ y) ||| r.1, r.2 + 1)
  | _, _ => (0, 0)

/-! ## SHA-256 (rust-crypto `sha2::Sha256`) -/

/-- Reduce to a 32-bit word. -/
def w32 (x : Nat) : Nat := x % 4294967296

/-- 32-bit rotate right. -/
def rotr (n x : Nat) : Nat := w32 ((x >>> n) ||| (x <<< (32 - n)))

/-- SHA-256 `Ch(x,y,z) = (x ∧ y) ⊕ (¬x ∧ z)` on 32-bit words. -/
def ch (x y z : Nat) : Nat := (x &&& y) ^^^ ((x ^^^ 4294967295) &&& z)

/-- SHA-256 `Maj(x,y,z)`. -/
def maj (x y z : Nat) : Nat := (x &&& y) ^^^ (x &&& z) ^^^ (y &&& z)

/-- SHA-256 `Σ0`. -/
def bigSigma0 (x : Nat) : Nat := rotr 2 x ^^^ rotr 13 x ^^^ rotr 22 x

/-- SHA-256 `Σ1`. -/
def bigSigma1 (x : Nat) : Nat := rotr 6 x ^^^ rotr 11 x ^^^ rotr 25 x

/-- SHA-256 `σ0`. -/
def smallSigma0 (x : Nat) : Nat := rotr 7 x ^^^ rotr 18 x ^^^ (x >>> 3)

/-- SHA-256 `σ1`. -/
def smallSigma1 (x : Nat) : Nat := rotr 17 x ^^^ rotr 19 x ^^^ (x >>> 10)

/-- The 64 SHA-256 round constants. -/
def sha256K : List Nat :=
  [1116352408, 1899447441, 3049323471, 3921009573, 961987163,
   1508970993, 2453635748, 2870763221, 3624381080, 310598401,
   607225278, 1426881987, 1925078388, 2162078206, 2614888103,
   3248222580, 3835390401, 4022224774, 264347078, 604807628,
   770255983, 1249150122, 1555081692, 1996064986, 2554220882,
   2821834349, 2952996808, 3210313671, 3336571891, 3584528711,
   113926993, 338241895, 666307205, 773529912, 1294757372,
   1396182291, 1695183700, 1986661051, 2177026350, 2456956037,
   2730485921, 2820302411, 3259730800, 3345764771, 3516065817,
   3600352804, 4094571909, 275423344, 430227734, 506948616,
   659060556, 883997877, 958139571, 1322822218, 1537002063,
   1747873779, 1955562222, 2024104815, 2227730452, 2361852424,
   2428436474, 2756734187, 3204031479, 3329325298]

/-- The SHA-256 initial hash value. -/
def sha256H0 : List Nat :=
  [1779033703, 3144134277, 1013904242, 2773480762,
   1359893119, 2600822924, 528734635, 1541459225]

/-- Pack a 64-byte chunk into sixteen big-endian 32-bit words. -/
def packWords : List Nat → List Nat
  | b0 :: b1 :: b2 :: b3 :: rest =>
    ((((b0 % 256) * 256 + b1 % 256) * 256 + b2 % 256) * 256 + b3 % 256) :: packWords rest
  | _ => []

/-- Extend sixteen schedule words to sixty-four. -/
def msgSchedule (ws : List Nat) : List Nat :=
  (List.range 48).foldl
    (fun a i =>
      a ++ [w32 (smallSigma1 (a.getD (i + 14) 0) + a.getD (i + 9) 0 +
                 smallSigma0 (a.getD (i + 1) 0) + a.getD i 0)])
    ws

/-- One SHA-256 compression round. -/
def sha256Round (ws : List Nat) (st : List Nat) (i : Nat) : List Nat :=
  match st with
  | [a, b, c, d, e, f, g, h] =>
    let t1 := w32 (h + bigSigma1 e + ch e f g + sha256K.getD i 0 + ws.getD i 0)
    let t2 := w32 (bigSigma0 a + maj a b c)
    [w32 (t1 + t2), a, b, c, w32 (d + t1), e, f, g]
  | _ => st

/-- Compress one 64-byte chunk into the running hash state. -/
def sha256Compress (h : List Nat) (chunk : List Nat) : List Nat :=
  let ws := msgSchedule (packWords chunk)
  let st := (List.range 64).foldl (sha256Round ws) h
  (h.zip st).map fun p => w32 (p.1 + p.2)

/-- Split a byte list into 64-byte chunks.  The fuel argument of the
worker only bounds the recursion depth; one unit of fuel per input byte
is more than enough, so the worker never runs dry. -/
def chunks64Go : Nat → List Nat → List (List Nat)
  | 0, _ => []
  | _, [] => []
  | fuel + 1, a :: t => ((a :: t).take 64) :: chunks64Go fuel ((a :: t).drop 64)

/-- Split a byte list into 64-byte chunks. -/
def chunks64 (l : List Nat) : List (List Nat) :=
  chunks64Go l.length l

/-- The SHA-256 padding: `0x80`, zeros to 56 mod 64, then the bit length
as eight big-endian bytes. -/
def sha256Pad (len : Nat) : List Nat :=
  128 :: List.replicate ((120 - (len + 1) % 64) % 64) 0 ++
    [len * 8 / 72057594037927936 % 256, len * 8 / 281474976710656 % 256,
     len * 8 / 1099511627776 % 256, len * 8 / 4294967296 % 256,
     len * 8 / 16777216 % 256, len * 8 / 65536 % 256,
     len * 8 / 256 % 256, len * 8 % 256]

/-- Big-endian bytes of a 32-bit word. -/
def wordBytes (w : Nat) : List Nat :=
  [w / 16777216 % 256, w / 65536 % 256, w / 256 % 256, w % 256]

/-- SHA-256 of a byte list, as the 32-byte digest. -/
def sha256 (msg : List Nat) : List Nat :=
  ((chunks64 (msg ++ sha256Pad msg.length)).foldl sha256Compress sha256H0).flatMap wordBytes

/-! ## HMAC-SHA256 (rust-crypto `hmac::Hmac` with `Sha256`)

`Hmac::new` hashes keys longer than the 64-byte block size, zero-pads the
key to the block size, and computes
`H((key ⊕ opad) ‖ H((key ⊕ ipad) ‖ msg))`. -/

/-- The expanded (hashed if over-long, then zero-padded) HMAC key. -/
def hmacKey (key : List Nat) : List Nat :=
  let k := if key.length ≤ 64 then key else sha256 key
  k ++ List.replicate (64 - k.length) 0

/-- HMAC-SHA256 of `msg` under `key`. -/
def hmacSha256 (key msg : List Nat) : List Nat :=
  let k := hmacKey key
  sha256 ((k.map fun b => b ^^^ 92) ++ sha256 ((k.map fun b => b ^^^ 54) ++ msg))

/-! ## The payload data model (`serde` structs in `main.rs`) -/

/-- The `Member` struct: the actor who made the change. -/
structure Member where
  first_name : String
  last_name : String
deriving DecidableEq

/-- The `Access` struct: one access-action record. -/
structure Access where
  action : String
deriving DecidableEq

/-- The `Payload` struct: a decoded LaunchDarkly change notification. -/
structure Payload where
  accesses : List Access
  kind : String
  name : String
  description : String
  title_verb : String
  member : Member
deriving DecidableEq

/-- The outbound Datadog event document built by `event`
(the `json!` object of `main.rs`). -/
structure DDEvent where
  title : String
  text : String
  tags : List String
  source_type_name : String
deriving DecidableEq

/-- The `event` function of `main.rs`.  The Rust body evaluates
`payload.accesses[0].action`; on an empty `accesses` vector that index
panics, which the embedding models as `none`.  On a non-empty vector it
builds the Datadog event document. -/
def event (p : Payload) : Option DDEvent :=
  match p.accesses with
  | [] => none
  | a :: _ =>
    some
      { title := p.member.first_name ++ " " ++ p.member.last_name ++ " " ++
          p.title_verb ++ " " ++ p.name
        text := p.description
        tags := ["kind:" ++ p.kind, "name:" ++ p.name, "action:" ++ a.action]
        source_type_name := "launch-darkly" }

/-! ## The orchestration (`record`, `handler`, `authenticated`) -/

/-- Observable side effects of one handler invocation: consulting the
payload decoder (`request.payload::<Payload>()`), the outbound POST to
the Datadog events endpoint, and the error log line of `record`. -/
inductive Effect where
  | decodeAttempt
  | publish (url : String) (body : DDEvent)
  | logError (msg : String)
deriving DecidableEq

/-- The `record` function of `main.rs`.  Returns early when the payload's
kind is not `"flag"`; otherwise builds the event (whose index panic
propagates as `none`) and POSTs it to the Datadog endpoint, logging — and
otherwise swallowing — a send error.  `sendResult` is the outcome of the
`reqwest` send call; the returned list is the trace of effects. -/
def record (p : Payload) (dd_api_key : String) (sendResult : Except String Unit) :
    Option (List Effect) :=
  if p.kind ≠ "flag" then some []
  else
    match event p with
    | none => none
    | some e =>
      let url := "https://app.datadoghq.com/api/v1/events?api_key=" ++ dd_api_key
      match sendResult with
      | Except.error err =>
        some [Effect.publish url e, Effect.logError ("failed to record event: " ++ err)]
      | Except.ok _ => some [Effect.publish url e]

/-- The process configuration (`Env` struct, read by `envy` from the
environment).  The secret is kept at byte level (`ld_secret.as_bytes()`
is what the HMAC consumes). -/
structure Env where
  ld_secret : List Nat
  dd_api_key : String

/-- An inbound request as the handler observes it: the raw bytes of the
`X-LD-Signature` header when present, the raw body bytes, and the result
of `request.payload::<Payload>()` (`Err` on a malformed body, `Ok none`
when no payload can be extracted, `Ok (some p)` on a decoded payload). -/
structure Request where
  signature_header : Option (List Nat)
  body : List Nat
  payload_result : Except Unit (Option Payload)

/-- The `authenticated` function of `main.rs`: take the `X-LD-Signature`
header, hex-decode it (`Vec::from_hex(value).ok()`), and for the decoded
claimed signature compare `Hmac::<Sha256>` of the body under the secret
against it with rust-crypto's `MacResult` equality, which is
`fixed_time_eq`.  An absent header or a failed hex decode yields `false`
(`Option::iter().any` over an empty iterator). -/
def authenticated (req : Request) (secret : List Nat) : Bool :=
  match req.signature_header with
  | none => false
  | some value =>
    match hexDecode value with
    | none => false
    | some signature => fixedTimeEq (hmacSha256 secret req.body) signature

/-- The JSON body `{"message": ...}` the handler answers with. -/
structure Response where
  message : String
deriving DecidableEq

/-- Abnormal handler terminations: the `Err` of the `envy` configuration
load (`?` in the Rust handler), and a Rust panic (the `accesses[0]` index
out of bounds) which produces no response at all. -/
inductive HandlerErr where
  | envError
  | panic
deriving DecidableEq

/-- The `handler` function of `main.rs`: load the configuration, check
`authenticated`, decode the payload, `record` it, and answer with one of
the three fixed messages.  `envResult` is the outcome of
`envy::from_env::<Env>()`; `sendResult` is the outcome of the outbound
send inside `record`.  The effect list records, in order, the decoder
consultation and the effects of `record`. -/
def handler (envResult : Option Env) (req : Request) (sendResult : Except String Unit) :
    Except HandlerErr (Response × List Effect) :=
  match envResult with
  | none => Except.error HandlerErr.envError
  | some env =>
    if authenticated req env.ld_secret then
      match req.payload_result with
      | Except.ok (some p) =>
        match record p env.dd_api_key sendResult with
        | none => Except.error HandlerErr.panic
        | some effs => Except.ok (⟨"👍"⟩, Effect.decodeAttempt :: effs)
      | _ => Except.ok (⟨"Failed to process request"⟩, [Effect.decodeAttempt])
    else Except.ok (⟨"Request not authenticated"⟩, [])

/-! ## Helper lemmas -/

/-- Every byte of a SHA-256 digest is an actual byte. -/
theorem sha256_mem_lt (msg : List Nat) : ∀ b ∈ sha256 msg, b < 256 := by
  intro b hb
  simp only [sha256, List.mem_flatMap, wordBytes, List.mem_cons,
    List.not_mem_nil, or_false] at hb
  obtain ⟨w, -, hw⟩ := hb
  rcases hw with rfl | rfl | rfl | rfl <;> omega

/-- Every byte of an HMAC-SHA256 digest is an actual byte. -/
theorem hmacSha256_mem_lt (key msg : List Nat) : ∀ b ∈ hmacSha256 key msg, b < 256 :=
  sha256_mem_lt _

/-- Decoding the hex digit of a digit value gives the value back. -/
theorem fromHexDigit_toHexDigit : ∀ n < 16, fromHexDigit (toHexDigit n) = some n := by
  decide

/-- Hex decoding inverts hex encoding on byte lists. -/
theorem hexDecode_hexEncode (bs : List Nat) (h : ∀ b ∈ bs, b < 256) :
    hexDecode (hexEncode bs) = some bs := by
  induction bs with
  | nil => rfl
  | cons b rest ih =>
    have hb : b < 256 := h b (List.mem_cons_self ..)
    have h1 : fromHexDigit (toHexDigit (b / 16)) = some (b / 16) :=
      fromHexDigit_toHexDigit _ (by omega)
    have h2 : fromHexDigit (toHexDigit (b % 16)) = some (b % 16) :=
      fromHexDigit_toHexDigit _ (by omega)
    have h3 := ih fun x hx => h x (List.mem_cons_of_mem _ hx)
    simp [hexEncode, hexDecode, h1, h2, h3]
    omega

/-- The `fixed_time_eq` accumulator of a list against itself is zero. -/
theorem fixedTimeEqAcc_self (l : List Nat) : fixedTimeEqAcc l l = 0 := by
  induction l with
  | nil => rfl
  | cons x xs ih => simp [fixedTimeEqAcc, ih, Nat.xor_self]

/-- `fixed_time_eq` accepts a list against itself. -/
theorem fixedTimeEq_self (l : List Nat) : fixedTimeEq l l = true := by
  simp [fixedTimeEq, fixedTimeEqAcc_self]

/-- A bitwise OR is zero only when both operands are. -/
theorem lor_eq_zero {a b : Nat} (h : a ||| b = 0) : a = 0 ∧ b = 0 := by
  have hb : ∀ i, a.testBit i = false ∧ b.testBit i = false := by
    intro i
    have h2 := congrArg (fun n => n.testBit i) h
    simpa [Nat.testBit_lor, Nat.zero_testBit] using h2
  constructor <;> apply Nat.eq_of_testBit_eq <;> intro i <;>
    simp [Nat.zero_testBit, (hb i).1, (hb i).2]

/-- A zero `fixed_time_eq` accumulator over equal-length lists means the
lists agree byte by byte. -/
theorem fixedTimeEqAcc_eq_zero {a b : List Nat} (hlen : a.length = b.length)
    (h : fixedTimeEqAcc a b = 0) : a = b := by
  induction a generalizing b with
  | nil => cases b with
    | nil => rfl
    | cons y ys => simp at hlen
  | cons x xs ih =>
    cases b with
    | nil => simp at hlen
    | cons y ys =>
      simp only [fixedTimeEqAcc] at h
      obtain ⟨h1, h2⟩ := lor_eq_zero h
      have hx : x = y := Nat.xor_eq_zero.mp h1
      have ht := ih (by simpa using hlen) h2
      simp [hx, ht]

/-- `fixed_time_eq` decides exact list equality. -/
theorem fixedTimeEq_eq_true_iff (a b : List Nat) : fixedTimeEq a b = true ↔ a = b := by
  constructor
  · intro h
    unfold fixedTimeEq at h
    split at h
    · exact fixedTimeEqAcc_eq_zero (by assumption) (by simpa using h)
    · simp at h
  · rintro rfl
    exact fixedTimeEq_self a

/-- The accumulator of the instrumented loop agrees with the plain one. -/
theorem fixedTimeEqTrace_fst (a b : List Nat) :
    (fixedTimeEqTrace a b).1 = fixedTimeEqAcc a b := by
  induction a generalizing b with
  | nil => cases b <;> rfl
  | cons x xs ih =>
    cases b with
    | nil => rfl
    | cons y ys => simp [fixedTimeEqTrace, fixedTimeEqAcc, ih]

/-- The instrumented loop performs one byte operation per index of the
shorter list, whatever the byte values are. -/
theorem fixedTimeEqTrace_snd (a b : List Nat) :
    (fixedTimeEqTrace a b).2 = min a.length b.length := by
  induction a generalizing b with
  | nil => cases b <;> rfl
  | cons x xs ih =>
    cases b with
    | nil => rfl
    | cons y ys =>
      simp [fixedTimeEqTrace, ih]
      omega

/-- `authenticated` on a request without an `X-LD-Signature` header. -/
theorem authenticated_none (body secret : List Nat) (pr : Except Unit (Option Payload)) :
    authenticated ⟨none, body, pr⟩ secret = false := rfl

/-- `authenticated` on a request with an `X-LD-Signature` header. -/
theorem authenticated_some (body secret : List Nat) (v : List Nat)
    (pr : Except Unit (Option Payload)) :
    authenticated ⟨some v, body, pr⟩ secret
      = (match hexDecode v with
         | none => false
         | some signature => fixedTimeEq (hmacSha256 secret body) signature) := rfl

/-- Presenting the hex encoding of the body's HMAC digest authenticates:
shared by the claim about `authenticated` and the handler witnesses. -/
theorem authenticated_hexhmac (body secret : List Nat)
    (pr : Except Unit (Option Payload)) :
    authenticated ⟨some (hexEncode (hmacSha256 secret body)), body, pr⟩ secret = true := by
  have hlt : ∀ b ∈ hmacSha256 secret body, b < 256 := hmacSha256_mem_lt _ _
  simp [authenticated, hexDecode_hexEncode _ hlt, fixedTimeEq_self]

/-! ## Claims -/

/-- C1: the spec requires that building the outbound event from a payload
with empty `accesses` fails with an explicit "missing access entry" error
and never indexes out of bounds.  The code instead evaluates
`payload.accesses[0].action`, which index-panics on an empty vector: at
this concrete payload the embedded `event` reaches the out-of-bounds
branch (modelled as `none`) — the code has no error path at all, so the
claim describes intended behaviour the code does not implement. -/
theorem C1_event_empty_accesses_panics :
    event { accesses := [], kind := "flag", name := "n", description := "d",
            title_verb := "changed", member := { first_name := "f", last_name := "l" } }
      = none := rfl

/-- C2: the digest comparison in `authenticated` is rust-crypto's
`fixed_time_eq`: it equals the full-length accumulate-then-test form (a
length test and the OR-accumulated XOR of every byte pair compared with
zero at the end), and the number of byte operations the loop performs is
the same for any two claimed signatures of the same length — it never
short-circuits on the first mismatching byte. -/
theorem C2_authenticated_fixed_time_compare (body secret value sig s s' : List Nat)
    (pr : Except Unit (Option Payload))
    (hd : hexDecode value = some sig)
    (hs : s.length = sig.length) (hs' : s'.length = sig.length) :
    authenticated ⟨some value, body, pr⟩ secret
        = fixedTimeEq (hmacSha256 secret body) sig
      ∧ fixedTimeEq (hmacSha256 secret body) sig
          = (decide ((hmacSha256 secret body).length = sig.length) &&
             ((fixedTimeEqTrace (hmacSha256 secret body) sig).1 == 0))
      ∧ (fixedTimeEqTrace (hmacSha256 secret body) s).2
          = (fixedTimeEqTrace (hmacSha256 secret body) s').2 := by
  refine ⟨by simp [authenticated, hd], ?_, ?_⟩
  · by_cases hl : (hmacSha256 secret body).length = sig.length <;>
      simp [fixedTimeEq, hl, fixedTimeEqTrace_fst]
  · simp [fixedTimeEqTrace_snd, hs, hs']

/-- C2 witness: the theorem applied to the empty body and secret with the
all-zero 64-character hex header. -/
theorem C2_witness :
    authenticated ⟨some (List.replicate 64 48), [], Except.error ()⟩ []
        = fixedTimeEq (hmacSha256 [] []) (List.replicate 32 0)
      ∧ fixedTimeEq (hmacSha256 [] []) (List.replicate 32 0)
          = (decide ((hmacSha256 [] []).length = (List.replicate 32 0).length) &&
             ((fixedTimeEqTrace (hmacSha256 [] []) (List.replicate 32 0)).1 == 0))
      ∧ (fixedTimeEqTrace (hmacSha256 [] []) (List.replicate 32 0)).2
          = (fixedTimeEqTrace (hmacSha256 [] []) (List.replicate 32 1)).2 := by
  have h := C2_authenticated_fixed_time_compare [] [] (List.replicate 64 48)
    (List.replicate 32 0) (List.replicate 32 0) (List.replicate 32 1)
    (Except.error ()) (by decide) (by decide) (by decide)
  exact h

/-- C3: for every request body and secret, presenting the hex encoding of
the body's HMAC-SHA256 digest under that secret as the `X-LD-Signature`
header makes `authenticated` return `true`. -/
theorem C3_authenticated_accepts_valid_signature (body secret : List Nat)
    (pr : Except Unit (Option Payload)) :
    authenticated ⟨some (hexEncode (hmacSha256 secret body)), body, pr⟩ secret = true :=
  authenticated_hexhmac body secret pr

/-- C4: `authenticated` fails closed: it is `true` exactly when the header
is present, hex-decodes, and the decoded claimed signature equals the
HMAC-SHA256 digest of the body under the secret — so an absent header, a
non-hex header, a wrong-length signature, and any mismatching digest byte
all yield `false`, and the total function never throws. -/
theorem C4_authenticated_fail_closed (body secret : List Nat) (hdr : Option (List Nat))
    (pr : Except Unit (Option Payload)) :
    authenticated ⟨hdr, body, pr⟩ secret = true ↔
      ∃ value, hdr = some value ∧ hexDecode value = some (hmacSha256 secret body) := by
  cases hdr with
  | none =>
    rw [authenticated_none]
    simp
  | some value =>
    rw [authenticated_some]
    cases hh : hexDecode value with
    | none =>
      simp [hh]
    | some sig =>
      show fixedTimeEq (hmacSha256 secret body) sig = true ↔ _
      constructor
      · intro hfx
        have hds : hmacSha256 secret body = sig := (fixedTimeEq_eq_true_iff _ _).mp hfx
        exact ⟨value, rfl, by rw [hh, hds]⟩
      · rintro ⟨v, hv, hd⟩
        injection hv with hv2
        subst hv2
        rw [hd] at hh
        injection hh with hh2
        rw [hh2]
        exact fixedTimeEq_self _

/-- C5: on a payload with non-empty `accesses` the built event has title
`"<firstName> <lastName> <titleVerb> <name>"` joined by single spaces in
that order, text equal to the description unmodified, exactly the three
tags `kind:`, `name:`, `action:` of the first access in that order, and
the fixed `source_type_name` literal `"launch-darkly"`. -/
theorem C5_event_fields (p : Payload) (a : Access) (rest : List Access)
    (h : p.accesses = a :: rest) :
    event p = some
      { title := p.member.first_name ++ " " ++ p.member.last_name ++ " " ++
          p.title_verb ++ " " ++ p.name
        text := p.description
        tags := ["kind:" ++ p.kind, "name:" ++ p.name, "action:" ++ a.action]
        source_type_name := "launch-darkly" } := by
  simp [event, h]

/-- C5 witness: the theorem applied to the end-to-end payload of the
repository's own test data. -/
theorem C5_witness :
    event { accesses := [{ action := "updateName" }], kind := "environment",
            name := "Testing",
            description := "- Changed the name from ~~Test~~ to *Testing*",
            title_verb := "changed the name of",
            member := { first_name := "Reese", last_name := "Applebaum" } }
      = some
      { title := "Reese Applebaum changed the name of Testing"
        text := "- Changed the name from ~~Test~~ to *Testing*"
        tags := ["kind:environment", "name:Testing", "action:updateName"]
        source_type_name := "launch-darkly" } := by
  have h := C5_event_fields
    { accesses := [{ action := "updateName" }], kind := "environment",
      name := "Testing",
      description := "- Changed the name from ~~Test~~ to *Testing*",
      title_verb := "changed the name of",
      member := { first_name := "Reese", last_name := "Applebaum" } }
    { action := "updateName" } [] rfl
  exact h

/-- `record` on a flag payload with at least one access entry publishes
the built event (helper shared by the handler claims). -/
theorem record_flag_cons (p : Payload) (key : String) (sendResult : Except String Unit)
    (hk : p.kind = "flag") (a : Access) (rest : List Access)
    (hacc : p.accesses = a :: rest) :
    ∃ effs, record p key sendResult = some effs := by
  have he : event p = some
      { title := p.member.first_name ++ " " ++ p.member.last_name ++ " " ++
          p.title_verb ++ " " ++ p.name
        text := p.description
        tags := ["kind:" ++ p.kind, "name:" ++ p.name, "action:" ++ a.action]
        source_type_name := "launch-darkly" } := by
    simp [event, hacc]
  cases sendResult with
  | error err =>
    exact ⟨[Effect.publish ("https://app.datadoghq.com/api/v1/events?api_key=" ++ key)
        { title := p.member.first_name ++ " " ++ p.member.last_name ++ " " ++
            p.title_verb ++ " " ++ p.name
          text := p.description
          tags := ["kind:" ++ p.kind, "name:" ++ p.name, "action:" ++ a.action]
          source_type_name := "launch-darkly" },
      Effect.logError ("failed to record event: " ++ err)], by simp [record, hk, he]⟩
  | ok u =>
    exact ⟨[Effect.publish ("https://app.datadoghq.com/api/v1/events?api_key=" ++ key)
        { title := p.member.first_name ++ " " ++ p.member.last_name ++ " " ++
            p.title_verb ++ " " ++ p.name
          text := p.description
          tags := ["kind:" ++ p.kind, "name:" ++ p.name, "action:" ++ a.action]
          source_type_name := "launch-darkly" }], by simp [record, hk, he]⟩

/-- C6: when signature verification fails the handler returns the fixed
"Request not authenticated" response with an empty effect trace — it
neither consults the payload decoder nor issues the outbound publish. -/
theorem C6_handler_unauthenticated (env : Env) (req : Request)
    (sendResult : Except String Unit)
    (h : authenticated req env.ld_secret = false) :
    handler (some env) req sendResult
      = Except.ok (⟨"Request not authenticated"⟩, []) := by
  simp [handler, h]

/-- C6 witness: the theorem applied to a request without a signature
header. -/
theorem C6_witness :
    handler (some ⟨[], "key"⟩) ⟨none, [], Except.error ()⟩ (Except.ok ())
      = Except.ok (⟨"Request not authenticated"⟩, []) :=
  C6_handler_unauthenticated ⟨[], "key"⟩ ⟨none, [], Except.error ()⟩ (Except.ok ()) rfl

/-- C7: an authenticated request whose payload decodes with a kind other
than `"flag"` produces the success response, and the effect trace shows
the decoder consultation and no publish call. -/
theorem C7_handler_kind_filter (env : Env) (req : Request)
    (sendResult : Except String Unit) (p : Payload)
    (ha : authenticated req env.ld_secret = true)
    (hp : req.payload_result = Except.ok (some p))
    (hk : p.kind ≠ "flag") :
    handler (some env) req sendResult
      = Except.ok (⟨"👍"⟩, [Effect.decodeAttempt]) := by
  simp [handler, ha, hp, record, hk]

/-- C7 witness: a correctly signed request carrying an
`"environment"`-kind payload. -/
theorem C7_witness :
    handler (some ⟨[], "key"⟩)
      ⟨some (hexEncode (hmacSha256 [] [])), [],
        Except.ok (some ⟨[], "environment", "n", "d", "v", ⟨"f", "l"⟩⟩)⟩
      (Except.ok ())
      = Except.ok (⟨"👍"⟩, [Effect.decodeAttempt]) :=
  C7_handler_kind_filter ⟨[], "key"⟩ _ (Except.ok ())
    ⟨[], "environment", "n", "d", "v", ⟨"f", "l"⟩⟩
    (authenticated_hexhmac [] [] _) rfl (by decide)

/-- C8 counterexample: a correctly signed request whose payload has kind
`"flag"` and an empty `accesses` list makes the handler hit the
`accesses[0]` index panic, so it produces no response at all — the claim
that every request with valid configuration gets one of the three fixed
response bodies is false at this input. -/
theorem C8_counterexample :
    handler (some ⟨[], "key"⟩)
      ⟨some (hexEncode (hmacSha256 [] [])), [],
        Except.ok (some ⟨[], "flag", "n", "d", "v", ⟨"f", "l"⟩⟩)⟩
      (Except.ok ())
      = Except.error HandlerErr.panic := by
  have ha := authenticated_hexhmac [] []
    (Except.ok (some (⟨[], "flag", "n", "d", "v", ⟨"f", "l"⟩⟩ : Payload)))
  simp [handler, ha, record, event]

/-- C8 (amended): for every request except the panicking ones (an
authenticated request whose payload decodes with kind `"flag"` and empty
`accesses`), the handler returns
exactly one response, its message is one of the three fixed strings, and
the outcome of the outbound publish call never changes which response is
returned. -/
theorem C8_handler_response_amended (env : Env) (req : Request)
    (sendResult sendResult' : Except String Unit)
    (hnp : authenticated req env.ld_secret = true →
      ¬ ∃ p, req.payload_result = Except.ok (some p) ∧
        p.kind = "flag" ∧ p.accesses = []) :
    ∃ resp effs effs',
      handler (some env) req sendResult = Except.ok (resp, effs) ∧
      handler (some env) req sendResult' = Except.ok (resp, effs') ∧
      (resp.message = "Request not authenticated" ∨
        resp.message = "Failed to process request" ∨ resp.message = "👍") := by
  by_cases ha : authenticated req env.ld_secret = true
  · cases hp : req.payload_result with
    | error e =>
      exact ⟨⟨"Failed to process request"⟩, [Effect.decodeAttempt], [Effect.decodeAttempt],
        by simp [handler, ha, hp], by simp [handler, ha, hp], Or.inr (Or.inl rfl)⟩
    | ok op =>
      cases op with
      | none =>
        exact ⟨⟨"Failed to process request"⟩, [Effect.decodeAttempt], [Effect.decodeAttempt],
          by simp [handler, ha, hp], by simp [handler, ha, hp], Or.inr (Or.inl rfl)⟩
      | some p =>
        by_cases hk : p.kind = "flag"
        · cases hacc : p.accesses with
          | nil => exact absurd ⟨p, hp, hk, hacc⟩ (hnp ha)
          | cons a rest =>
            obtain ⟨effs, he⟩ := record_flag_cons p env.dd_api_key sendResult hk a rest hacc
            obtain ⟨effs', he'⟩ := record_flag_cons p env.dd_api_key sendResult' hk a rest hacc
            exact ⟨⟨"👍"⟩, Effect.decodeAttempt :: effs, Effect.decodeAttempt :: effs',
              by simp [handler, ha, hp, he], by simp [handler, ha, hp, he'],
              Or.inr (Or.inr rfl)⟩
        · exact ⟨⟨"👍"⟩, [Effect.decodeAttempt], [Effect.decodeAttempt],
            by simp [handler, ha, hp, record, hk], by simp [handler, ha, hp, record, hk],
            Or.inr (Or.inr rfl)⟩
  · exact ⟨⟨"Request not authenticated"⟩, [], [],
      by simp [handler, ha], by simp [handler, ha], Or.inl rfl⟩

/-- C8 witness: the amended theorem applied to an unsigned request with a
succeeding and a failing publish outcome. -/
theorem C8_witness :
    ∃ resp effs effs',
      handler (some ⟨[], "key"⟩) ⟨none, [], Except.error ()⟩ (Except.ok ())
        = Except.ok (resp, effs) ∧
      handler (some ⟨[], "key"⟩) ⟨none, [], Except.error ()⟩ (Except.error "boom")
        = Except.ok (resp, effs') ∧
      (resp.message = "Request not authenticated" ∨
        resp.message = "Failed to process request" ∨ resp.message = "👍") :=
  C8_handler_response_amended ⟨[], "key"⟩ ⟨none, [], Except.error ()⟩
    (Except.ok ()) (Except.error "boom")
    (fun _ => by rintro ⟨p, hp, h1, h2⟩; simp at hp)

/-- C9: `record` returns before building the event whenever the payload's
kind is not `"flag"`, with no publish effect and no panic — so the
out-of-bounds index in event construction is unreachable for non-flag
payloads, whatever their `accesses` list. -/
theorem C9_record_nonflag_no_panic (p : Payload) (key : String)
    (sendResult : Except String Unit) (h : p.kind ≠ "flag") :
    record p key sendResult = some [] := by
  simp [record, h]

/-- C9 witness: a non-flag payload with an empty `accesses` list is
processed without a panic. -/
theorem C9_witness :
    record ⟨[], "environment", "n", "d", "v", ⟨"f", "l"⟩⟩ "key" (Except.ok ())
      = some [] :=
  C9_record_nonflag_no_panic ⟨[], "environment", "n", "d", "v", ⟨"f", "l"⟩⟩ "key"
    (Except.ok ()) (by decide)

/-- C10 counterexample: an authenticated, decodable request whose payload
has kind `"flag"` and empty `accesses` does not produce the success
marker — the handler panics instead of answering `{"message": "👍"}`, so
the claim is false for this authenticated decodable request. -/
theorem C10_counterexample :
    ¬ ∃ effs, handler (some ⟨[], "k2"⟩)
      ⟨some (hexEncode (hmacSha256 [] [])), [],
        Except.ok (some ⟨[], "flag", "m", "d", "v", ⟨"f", "l"⟩⟩)⟩
      (Except.ok ()) = Except.ok (⟨"👍"⟩, effs) := by
  have ha := authenticated_hexhmac [] []
    (Except.ok (some (⟨[], "flag", "m", "d", "v", ⟨"f", "l"⟩⟩ : Payload)))
  have hpanic : handler (some ⟨[], "k2"⟩)
      ⟨some (hexEncode (hmacSha256 [] [])), [],
        Except.ok (some ⟨[], "flag", "m", "d", "v", ⟨"f", "l"⟩⟩)⟩
      (Except.ok ()) = Except.error HandlerErr.panic := by
    simp [handler, ha, record, event]
  rintro ⟨effs, he⟩
  rw [hpanic] at he
  cases he

/-- C10 (amended): for every authenticated request whose payload decodes
and does not hit the empty-accesses flag panic, the handler's success
body is exactly `{"message": "👍"}` — whether or not the kind filter
triggers a publish. -/
theorem C10_handler_success_marker (env : Env) (req : Request)
    (sendResult : Except String Unit) (p : Payload)
    (ha : authenticated req env.ld_secret = true)
    (hp : req.payload_result = Except.ok (some p))
    (hsafe : p.kind = "flag" → p.accesses ≠ []) :
    ∃ effs, handler (some env) req sendResult = Except.ok (⟨"👍"⟩, effs) := by
  by_cases hk : p.kind = "flag"
  · cases hacc : p.accesses with
    | nil => exact absurd hacc (hsafe hk)
    | cons a rest =>
      obtain ⟨effs, he⟩ := record_flag_cons p env.dd_api_key sendResult hk a rest hacc
      exact ⟨Effect.decodeAttempt :: effs, by simp [handler, ha, hp, he]⟩
  · exact ⟨[Effect.decodeAttempt], by simp [handler, ha, hp, record, hk]⟩

/-- C10 witness: a correctly signed flag-kind payload with one access
entry gets the success marker (and a publish). -/
theorem C10_witness :
    ∃ effs, handler (some ⟨[], "k3"⟩)
      ⟨some (hexEncode (hmacSha256 [] [])), [],
        Except.ok (some ⟨[⟨"updateOn"⟩], "flag", "x", "d", "v", ⟨"f", "l"⟩⟩)⟩
      (Except.ok ()) = Except.ok (⟨"👍"⟩, effs) :=
  C10_handler_success_marker ⟨[], "k3"⟩ _ (Except.ok ())
    ⟨[⟨"updateOn"⟩], "flag", "x", "d", "v", ⟨"f", "l"⟩⟩
    (authenticated_hexhmac [] [] _) rfl (fun _ => by decide)
